import Mathlib

/-!
A verification development for the root-relay WebSocket hub (`src/server.js`,
`src/s3Client.js`, `src/config.js`).

The JavaScript core is embedded shallowly:

* the JS `Map` objects `deviceIdClients` / `productIdClients` and the plain
  object `clients` are modelled as association lists with `mapGet` / `mapSet` /
  `mapDelete` (JS `Map.get` / `Map.set` / `Map.delete`, property read / write /
  `delete`);
* a WebSocket connection's per-socket fields (`ws.clientId`, `ws.isAlive`,
  `ws.isTerminating`, `ws.messageCount`, `ws.messageWindow`, and its
  device/product role) become the structure `Conn`; `randomUUID` ids are
  modelled as naturals drawn from a fresh counter;
* the event handlers (`connection`, `message`, `pong`, `close`, the heartbeat
  `setInterval` callback) become functions on a `ServerState`, and a trace of
  events drives a step function, giving the reachable states;
* `ws.send` calls are logged in an outbox (`sent`), `ws.close(code, reason)`
  calls in `closeCalls`, `ws.ping()` calls in `pings`; `admitted` and
  `closedIds` are ghost logs of admitted connections and processed close
  events, used only to state properties;
* timestamps (`Date.now()`) are naturals in milliseconds.  JS computes
  `now - ws.messageWindow > 1000` where a negative difference is never
  `> 1000`, which truncated `Nat` subtraction reproduces exactly.
-/

namespace RootRelay

/-! ### Association-list maps (JS `Map` / plain-object semantics) -/

def mapGet {κ α : Type} [DecidableEq κ] : List (κ × α) → κ → Option α
  | [], _ => none
  | (k, v) :: rest, k2 => if k = k2 then some v else mapGet rest k2

def mapSet {κ α : Type} [DecidableEq κ] : List (κ × α) → κ → α → List (κ × α)
  | [], k, v => [(k, v)]
  | (k2, w) :: rest, k, v =>
      if k2 = k then (k2, v) :: rest else (k2, w) :: mapSet rest k v

def mapDelete {κ α : Type} [DecidableEq κ] (m : List (κ × α)) (k : κ) : List (κ × α) :=
  m.filter (fun p => p.1 ≠ k)

/-! ### Data model

`Role` is the identifier a connection registered under: `ws.deviceId` or
`ws.productId` (admission guarantees exactly one is set, `server.js` 330-338).
-/

inductive Role : Type
  | device (id : String)
  | product (id : String)
deriving DecidableEq, Repr

/-- Per-socket state: the fields `server.js` stores on the `ws` object
(lines 319-323 and 336/338), plus `readyOpen` for
`ws.readyState === WebSocket.OPEN` as checked at delivery (line 368/378). -/
structure Conn : Type where
  clientId : Nat
  role : Role
  isAlive : Bool
  isTerminating : Bool
  messageCount : Nat
  messageWindow : Nat
  readyOpen : Bool
deriving DecidableEq, Repr

/-- JS truthiness of a string-or-absent value (`searchParams.get` result or a
parsed JSON string field): `null`/missing and the empty string are falsy. -/
def truthy : Option String → Bool
  | none => false
  | some s => !(s == "")

/-- A parsed inbound JSON message: the fields `server.js` reads
(`message.target`, `message.deviceId`, `message.productId`), plus the rest of
the object as an opaque payload carried through re-serialization. -/
structure Message : Type where
  target : Option String
  deviceId : Option String
  productId : Option String
  payload : String
deriving DecidableEq, Repr

def encodeField (field : String) : Option String → String
  | none => ""
  | some v => "\x22" ++ field ++ "\x22:\x22" ++ v ++ "\x22,"

/-- `JSON.stringify(message)` (line 369/379): one fixed serialization of the
parsed message, so every recipient of the same message gets identical bytes. -/
def stringifyMessage (m : Message) : String :=
  "\x7b" ++ encodeField "target" m.target ++ encodeField "deviceId" m.deviceId ++
    encodeField "productId" m.productId ++ m.payload ++ "\x7d"

/-- An inbound WebSocket frame: either text that `JSON.parse` rejects, or a
parsed JSON object. -/
inductive Frame : Type
  | malformed
  | parsed (m : Message)
deriving DecidableEq, Repr

/-- The hub state: the module-level maps of `server.js` (lines 301-303)
plus instrumentation logs.  `sent` records `targetWs.send(bytes)` calls,
`closeCalls` records `ws.close(code, reason)` calls, `pings` records
`ws.ping()` calls; `admitted` (id ↦ role of every connection that passed
admission) and `closedIds` (ids whose `close` event ran) are ghost logs. -/
structure ServerState : Type where
  clients : List (Nat × Conn)
  deviceIdClients : List (String × List Nat)
  productIdClients : List (String × List Nat)
  nextClientId : Nat
  admitted : List (Nat × Role)
  closedIds : List Nat
  sent : List (Nat × String)
  closeCalls : List (Nat × Nat × String)
  pings : List Nat
deriving DecidableEq, Repr

def initState : ServerState :=
  { clients := [], deviceIdClients := [], productIdClients := [],
    nextClientId := 0, admitted := [], closedIds := [],
    sent := [], closeCalls := [], pings := [] }

/-! ### Connection admission (`wss.on("connection")`, `server.js` 318-338) -/

inductive AdmissionResult : Type
  | rejected (code : Nat) (reason : String)
  | accepted (clientId : Nat)
deriving DecidableEq, Repr

def handleConnection (st : ServerState) (now : Nat)
    (deviceId productId : Option String) : ServerState × AdmissionResult :=
  let cid := st.nextClientId
  let st0 := { st with nextClientId := cid + 1 }
  if truthy deviceId = false ∧ truthy productId = false then
    (st0, AdmissionResult.rejected 1008 "Missing device-id or product-id")
  else if truthy deviceId = true ∧ truthy productId = true then
    (st0, AdmissionResult.rejected 1008 "Can\x27t provide both device-id and product-id")
  else
    let role : Role :=
      if truthy deviceId then Role.device (deviceId.getD "")
      else Role.product (productId.getD "")
    let c : Conn :=
      { clientId := cid, role := role, isAlive := true, isTerminating := false,
        messageCount := 0, messageWindow := now, readyOpen := true }
    let st1 := { st0 with clients := mapSet st0.clients cid c,
                          admitted := mapSet st0.admitted cid role }
    let dBucket := ((mapGet st1.deviceIdClients (deviceId.getD "")).getD []) ++ [cid]
    let st2 :=
      if truthy deviceId then
        { st1 with deviceIdClients := mapSet st1.deviceIdClients (deviceId.getD "") dBucket }
      else st1
    let pBucket := ((mapGet st2.productIdClients (productId.getD "")).getD []) ++ [cid]
    let st3 :=
      if truthy productId then
        { st2 with productIdClients := mapSet st2.productIdClients (productId.getD "") pBucket }
      else st2
    (st3, AdmissionResult.accepted cid)

/-! ### Rate limiting (`server.js` 342-357) -/

/-- Outcome of the rate-limiter prologue of the `message` handler:
the updated socket fields, whether the message is discarded (`limited`), and
the `ws.close` call issued, if any. -/
structure RateResult : Type where
  conn : Conn
  limited : Bool
  closeCall : Option (Nat × String)
deriving DecidableEq, Repr

def rateCheck (c : Conn) (now : Nat) : RateResult :=
  let c1 := if now - c.messageWindow > 1000
    then { c with messageWindow := now, messageCount := 0 } else c
  let c2 := { c1 with messageCount := c1.messageCount + 1 }
  if c2.messageCount > 25 then
    if c2.isTerminating then { conn := c2, limited := true, closeCall := none }
    else { conn := { c2 with isTerminating := true }, limited := true,
           closeCall := some (1008, "Rate limit exceeded") }
  else { conn := c2, limited := false, closeCall := none }

/-! ### Router (`server.js` 359-386) -/

/-- The target ids whose `clients` lookup succeeds with an open socket
(lines 367-368 / 377-378); the `forEach` sends to exactly these, in order. -/
def resolveRecipients (clients : List (Nat × Conn)) (targets : List Nat) : List Nat :=
  targets.filter (fun tid =>
    match mapGet clients tid with
    | some tws => tws.readyOpen
    | none => false)

/-- The `targets.forEach` delivery loop: each send only appends to the wire,
never touches the maps, so the loop equals this bulk append. -/
def deliverTo (st : ServerState) (targets : List Nat) (bytes : String) : ServerState :=
  { st with sent :=
      st.sent ++ (resolveRecipients st.clients targets).map (fun tid => (tid, bytes)) }

/-- The `try { ... } catch` body of the `message` handler (lines 359-386):
parse, validate `target`, validate the id field, fan out.  Every thrown
validation error is caught and only logged, leaving the state unchanged. -/
def routeMessage (st : ServerState) (f : Frame) : ServerState :=
  match f with
  | Frame.malformed => st
  | Frame.parsed m =>
    if ¬(m.target = some "device" ∨ m.target = some "product") then st
    else if m.target = some "device" then
      if truthy m.deviceId = false then st
      else deliverTo st ((mapGet st.deviceIdClients (m.deviceId.getD "")).getD [])
        (stringifyMessage m)
    else
      if truthy m.productId = false then st
      else deliverTo st ((mapGet st.productIdClients (m.productId.getD "")).getD [])
        (stringifyMessage m)

/-- The entry appended to the `closeCalls` log for a `ws.close` call made by
the rate limiter. -/
def closeCallLog (cid : Nat) : Option (Nat × String) → List (Nat × Nat × String)
  | some (code, reason) => [(cid, code, reason)]
  | none => []

/-- The full `message` handler (`server.js` 342-387): rate-limit prologue,
then the router.  The handler is a closure over a live socket, so it only
fires for a connection present in `clients`. -/
def handleMessage (st : ServerState) (cid : Nat) (now : Nat) (f : Frame) : ServerState :=
  match mapGet st.clients cid with
  | none => st
  | some c =>
    let r := rateCheck c now
    let st1 := { st with clients := mapSet st.clients cid r.conn,
                         closeCalls := st.closeCalls ++ closeCallLog cid r.closeCall }
    if r.limited then st1 else routeMessage st1 f

/-! ### Teardown (`ws.on("close")`, `server.js` 389-403) -/

/-- Lines 394-396 (and symmetrically 398-401): re-read the bucket, filter the
closing id out, delete the bucket when empty, otherwise store it back. -/
def removeFromBucket (m : List (String × List Nat)) (k : String) (cid : Nat) :
    List (String × List Nat) :=
  let l := ((mapGet m k).getD []).filter (fun e => !(e == cid))
  if l.length = 0 then mapDelete m k else mapSet m k l

/-- The close-handler body: drop the connection from `clients` and scrub the
registry bucket of its role.  (A `ws` object carries exactly one of
`deviceId` / `productId`, so exactly one of the two `if` blocks runs.) -/
def teardown (st : ServerState) (cid : Nat) (role : Role) : ServerState :=
  match role with
  | Role.product pid =>
      { st with clients := mapDelete st.clients cid,
                productIdClients := removeFromBucket st.productIdClients pid cid }
  | Role.device did =>
      { st with clients := mapDelete st.clients cid,
                deviceIdClients := removeFromBucket st.deviceIdClients did cid }

/-- The `close` event for socket `cid`: the handler only exists for admitted
connections (rejected sockets return before line 334 registers anything). -/
def handleClose (st : ServerState) (cid : Nat) : ServerState :=
  match mapGet st.admitted cid with
  | none => st
  | some role => { teardown st cid role with closedIds := st.closedIds ++ [cid] }

/-! ### Pong and heartbeat (`server.js` 310-316, 340) -/

def handlePong (st : ServerState) (cid : Nat) : ServerState :=
  match mapGet st.clients cid with
  | none => st
  | some c => { st with clients := mapSet st.clients cid { c with isAlive := true } }

/-- One socket's share of the heartbeat callback: dead sockets are
`ws.terminate()`d (which fires their `close` event), live ones are flagged
and pinged. -/
def tickConn (st : ServerState) (cid : Nat) : ServerState :=
  match mapGet st.clients cid with
  | none => st
  | some c =>
    if c.isAlive = false then handleClose st cid
    else { st with clients := mapSet st.clients cid { c with isAlive := false },
                   pings := st.pings ++ [cid] }

/-- The heartbeat `setInterval` callback (lines 310-316): `wss.clients.forEach`
over the sockets open at tick time. -/
def heartbeatTick (st : ServerState) : ServerState :=
  (st.clients.map Prod.fst).foldl tickConn st

/-! ### Event traces and reachability -/

inductive Event : Type
  | connect (now : Nat) (deviceId productId : Option String)
  | message (cid : Nat) (now : Nat) (f : Frame)
  | pong (cid : Nat)
  | close (cid : Nat)
  | tick
deriving DecidableEq, Repr

def step (st : ServerState) (e : Event) : ServerState :=
  match e with
  | Event.connect now d p => (handleConnection st now d p).1
  | Event.message cid now f => handleMessage st cid now f
  | Event.pong cid => handlePong st cid
  | Event.close cid => handleClose st cid
  | Event.tick => heartbeatTick st

def run (es : List Event) : ServerState := es.foldl step initState

def Reachable (st : ServerState) : Prop := ∃ es, run es = st

/-! ### The registry invariant -/

/-- The state invariant maintained by every handler: closed connections are
fully scrubbed, buckets are never empty, bucket members carry the matching
role, connection ids are unique and fresh. -/
structure Inv (st : ServerState) : Prop where
  closedNotClient : ∀ cid ∈ st.closedIds, mapGet st.clients cid = none
  closedNotDevice : ∀ cid ∈ st.closedIds, ∀ k l, mapGet st.deviceIdClients k = some l → cid ∉ l
  closedNotProduct : ∀ cid ∈ st.closedIds, ∀ k l, mapGet st.productIdClients k = some l → cid ∉ l
  deviceNonempty : ∀ k l, mapGet st.deviceIdClients k = some l → l ≠ []
  productNonempty : ∀ k l, mapGet st.productIdClients k = some l → l ≠ []
  deviceRole : ∀ k l, mapGet st.deviceIdClients k = some l →
    ∀ cid ∈ l, mapGet st.admitted cid = some (Role.device k)
  productRole : ∀ k l, mapGet st.productIdClients k = some l →
    ∀ cid ∈ l, mapGet st.admitted cid = some (Role.product k)
  clientsAdmitted : ∀ cid c, mapGet st.clients cid = some c →
    mapGet st.admitted cid = some c.role
  admittedFresh : ∀ cid r, mapGet st.admitted cid = some r → cid < st.nextClientId
  closedFresh : ∀ cid ∈ st.closedIds, cid < st.nextClientId
  clientsNodup : (st.clients.map Prod.fst).Nodup

/-! ### Firmware lookup (`app.get("/firmware/observer")`, `server.js` 418-446,
with `src/s3Client.js` and `src/config.js`) -/

def s3Region : String := "fra1"

def s3Domain : String := "digitaloceanspaces.com"

/-- `getPublicObjectURL` from `src/s3Client.js` (the bucket name comes from the
environment). -/
def getPublicObjectURL (bucketName key : String) : String :=
  "https://" ++ bucketName ++ "." ++ s3Region ++ "." ++ s3Domain ++ "/" ++ key

/-- The JS test `key.endsWith("/")`: for this one-character suffix it holds
exactly when the last character is the slash.  (Working on the character list
keeps the definition kernel-evaluable.) -/
def keyEndsWithSlash (key : String) : Bool :=
  match key.data.getLast? with
  | some ch => ch == '/'
  | none => false

/-- An entry of the S3 `ListObjectsV2` response `Contents`. -/
structure S3Object : Type where
  key : String
  lastModified : Nat
deriving DecidableEq, Repr

/-- Maximal leading digit run (the greedy `\d+`). -/
def takeDigits : List Char → List Char × List Char
  | [] => ([], [])
  | c :: rest =>
      if c.isDigit then
        let (d, r) := takeDigits rest
        (c :: d, r)
      else ([], c :: rest)

/-- Try to match `\d+\.\d+\.\d+` starting exactly here.  Because `\d+` is
greedy and a digit can never satisfy the following `\.`, the regex engine
never backtracks into the digit runs, so maximal munch is exact. -/
def matchSemverAt (s : List Char) : Option (List Char) :=
  let (d1, r1) := takeDigits s
  if d1 = [] then none
  else
    match r1 with
    | '.' :: r2 =>
        let (d2, r3) := takeDigits r2
        if d2 = [] then none
        else
          match r3 with
          | '.' :: r4 =>
              let (d3, _) := takeDigits r4
              if d3 = [] then none
              else some (d1 ++ ['.'] ++ d2 ++ ['.'] ++ d3)
          | _ => none
    | _ => none

/-- Leftmost match of `\d+\.\d+\.\d+`, as `String.prototype.match` finds it. -/
def findSemver : List Char → Option (List Char)
  | [] => none
  | c :: rest =>
      match matchSemverAt (c :: rest) with
      | some m => some m
      | none => findSemver rest

/-- `key.match(/(\d+\.\d+\.\d+)/)`, group 1 (line 433). -/
def extractVersion (key : String) : Option String :=
  (findSemver key.data).map (fun l => String.mk l)

/-- The JSON responses the firmware route can produce (the 500 path fires only
when the storage call itself throws, which is outside the listing contract). -/
inductive FirmwareResponse : Type
  | notFound (error : String)
  | ok (version : String) (url : String)
deriving DecidableEq, Repr

/-- The `/firmware/observer` handler body (lines 418-446), as a function of the
bucket name and the listing `Contents` returned by object storage. -/
def firmwareObserver (bucketName : String) (contents : List S3Object) : FirmwareResponse :=
  let files := contents.filter (fun item => !(keyEndsWithSlash item.key))
  match files with
  | [] => FirmwareResponse.notFound "No firmware found!"
  | file :: _ =>
      match extractVersion file.key with
      | none => FirmwareResponse.notFound "No version found in filename!"
      | some v => FirmwareResponse.ok v (getPublicObjectURL bucketName file.key)

/-- Modelled from the spec's words, for comparison in claim C8: "the newest
firmware object" — an object no other listed object is more recent than. -/
def IsNewest (files : List S3Object) (o : S3Object) : Prop :=
  o ∈ files ∧ ∀ o2 ∈ files, o2.lastModified ≤ o.lastModified

instance instDecidableIsNewest (files : List S3Object) (o : S3Object) :
    Decidable (IsNewest files o) :=
  decidable_of_iff (o ∈ files ∧ ∀ o2 ∈ files, o2.lastModified ≤ o.lastModified) Iff.rfl

/-! ### Concrete fixtures used by the witnesses -/

def fwDemoOld : S3Object :=
  { key := "rootprivacy/firmware/observer/fw-1.0.0.bin", lastModified := 10 }

def fwDemoNew : S3Object :=
  { key := "rootprivacy/firmware/observer/fw-2.0.0.bin", lastModified := 20 }

def fwDemoNoVer : S3Object :=
  { key := "rootprivacy/firmware/observer/firmware.bin", lastModified := 3 }

/-- Two device connections under "d" (ids 0 and 1) and one product connection
under the same identifier "d" in the other namespace (id 2). -/
def demoTrace : List Event :=
  [Event.connect 0 (some "d") none, Event.connect 0 (some "d") none,
   Event.connect 0 none (some "d")]

def demoMsg : Message :=
  { target := some "device", deviceId := some "d", productId := none, payload := "" }

def demoMsgProduct : Message :=
  { target := some "product", deviceId := none, productId := some "d", payload := "" }

/-- One device connection under "d" (id 0), then its close event. -/
def demoTraceClose : List Event := [Event.connect 0 (some "d") none, Event.close 0]

/-- The socket state of the first demo connection right after admission. -/
def demoConn0 : Conn :=
  { clientId := 0, role := Role.device "d", isAlive := true, isTerminating := false,
    messageCount := 0, messageWindow := 0, readyOpen := true }

/-- One device connection under "d" (id 0). -/
def demoTraceHb : List Event := [Event.connect 0 (some "d") none]

@[simp]
theorem mapGet_nil {κ α : Type} [DecidableEq κ] (k : κ) :
    mapGet ([] : List (κ × α)) k = none := rfl

@[simp]
theorem mapGet_mapSet_self {κ α : Type} [DecidableEq κ] (m : List (κ × α)) (k : κ) (v : α) :
    mapGet (mapSet m k v) k = some v := by
  induction m with
  | nil => simp [mapGet, mapSet]
  | cons p rest ih =>
      obtain ⟨k2, w⟩ := p
      by_cases h : k2 = k
      · subst h; simp [mapGet, mapSet]
      · simp [mapGet, mapSet, h, ih]

theorem mapGet_mapSet_ne {κ α : Type} [DecidableEq κ] (m : List (κ × α)) (k k2 : κ) (v : α)
    (h : k ≠ k2) : mapGet (mapSet m k v) k2 = mapGet m k2 := by
  induction m with
  | nil => simp [mapGet, mapSet, h]
  | cons p rest ih =>
      obtain ⟨k3, w⟩ := p
      by_cases h3 : k3 = k
      · subst h3; simp [mapGet, mapSet, h]
      · by_cases h2 : k3 = k2
        · subst h2; simp [mapGet, mapSet, h3]
        · simp [mapGet, mapSet, h3, h2, ih]

@[simp]
theorem mapGet_mapDelete_self {κ α : Type} [DecidableEq κ] (m : List (κ × α)) (k : κ) :
    mapGet (mapDelete m k) k = none := by
  induction m with
  | nil => simp [mapGet, mapDelete]
  | cons p rest ih =>
      obtain ⟨k2, w⟩ := p
      by_cases h : k2 = k
      · subst h; simpa [mapDelete] using ih
      · simpa [mapDelete, mapGet, h] using ih

theorem mapGet_mapDelete_ne {κ α : Type} [DecidableEq κ] (m : List (κ × α)) (k k2 : κ)
    (h : k ≠ k2) : mapGet (mapDelete m k) k2 = mapGet m k2 := by
  induction m with
  | nil => simp [mapDelete]
  | cons p rest ih =>
      obtain ⟨k3, w⟩ := p
      by_cases h3 : k3 = k
      · subst h3; simpa [mapDelete, mapGet, h, Ne.symm h] using ih
      · by_cases h2 : k3 = k2
        · subst h2; simp [mapDelete, mapGet, h3, ih]
        · simpa [mapDelete, mapGet, h3, h2] using ih

theorem mapDelete_mapDelete {κ α : Type} [DecidableEq κ] (m : List (κ × α)) (k : κ) :
    mapDelete (mapDelete m k) k = mapDelete m k := by
  simp [mapDelete, List.filter_filter]

theorem mapDelete_of_mapGet_none {κ α : Type} [DecidableEq κ] (m : List (κ × α)) (k : κ)
    (h : mapGet m k = none) : mapDelete m k = m := by
  induction m with
  | nil => rfl
  | cons p rest ih =>
      obtain ⟨k2, w⟩ := p
      by_cases h2 : k2 = k
      · subst h2; simp [mapGet] at h
      · simp [mapGet, h2] at h
        simp [mapDelete, h2] at ih ⊢
        exact ih h

theorem mapSet_mapSet_self {κ α : Type} [DecidableEq κ] (m : List (κ × α)) (k : κ) (v w : α) :
    mapSet (mapSet m k v) k w = mapSet m k w := by
  induction m with
  | nil => simp [mapSet]
  | cons p rest ih =>
      obtain ⟨k2, u⟩ := p
      by_cases h : k2 = k
      · subst h; simp [mapSet]
      · simp [mapSet, h, ih]

theorem mapGet_mapSet_cases {κ α : Type} [DecidableEq κ] (m : List (κ × α)) (k k2 : κ)
    (v w : α) (h : mapGet (mapSet m k v) k2 = some w) :
    k = k2 ∨ mapGet m k2 = some w := by
  by_cases hk : k = k2
  · exact Or.inl hk
  · right; rwa [mapGet_mapSet_ne m k k2 v hk] at h

/-! ### Further map lemmas -/

theorem mapGet_eq_none_iff {κ α : Type} [DecidableEq κ] (m : List (κ × α)) (k : κ) :
    mapGet m k = none ↔ k ∉ m.map Prod.fst := by
  induction m with
  | nil => simp
  | cons p rest ih =>
      obtain ⟨k2, w⟩ := p
      by_cases h : k2 = k
      · subst h; simp [mapGet]
      · simp [mapGet, h, ih, Ne.symm h]

theorem mapGet_some_mem_keys {κ α : Type} [DecidableEq κ] (m : List (κ × α)) (k : κ) (v : α)
    (h : mapGet m k = some v) : k ∈ m.map Prod.fst := by
  by_contra hk
  rw [← mapGet_eq_none_iff] at hk
  rw [hk] at h
  exact Option.noConfusion h

theorem mapSet_of_mapGet_none {κ α : Type} [DecidableEq κ] (m : List (κ × α)) (k : κ) (v : α)
    (h : mapGet m k = none) : mapSet m k v = m ++ [(k, v)] := by
  induction m with
  | nil => simp [mapSet]
  | cons p rest ih =>
      obtain ⟨k2, w⟩ := p
      by_cases h2 : k2 = k
      · subst h2; simp [mapGet] at h
      · simp [mapGet, h2] at h
        simp [mapSet, h2, ih h]

theorem keys_mapSet_of_mapGet_some {κ α : Type} [DecidableEq κ] (m : List (κ × α)) (k : κ)
    (v w : α) (h : mapGet m k = some w) :
    (mapSet m k v).map Prod.fst = m.map Prod.fst := by
  induction m with
  | nil => simp [mapGet] at h
  | cons p rest ih =>
      obtain ⟨k2, u⟩ := p
      by_cases h2 : k2 = k
      · subst h2; simp [mapSet]
      · simp [mapGet, h2] at h
        simp [mapSet, h2, ih h]

theorem keys_mapDelete_sublist {κ α : Type} [DecidableEq κ] (m : List (κ × α)) (k : κ) :
    ((mapDelete m k).map Prod.fst).Sublist (m.map Prod.fst) :=
  List.Sublist.map Prod.fst (List.filter_sublist m)

/-! ### `removeFromBucket` lemmas -/

theorem removeFromBucket_def (m : List (String × List Nat)) (k : String) (cid : Nat) :
    removeFromBucket m k cid =
      if (((mapGet m k).getD []).filter (fun e => !(e == cid))).length = 0
      then mapDelete m k
      else mapSet m k (((mapGet m k).getD []).filter (fun e => !(e == cid))) := rfl

theorem mapGet_removeFromBucket_ne (m : List (String × List Nat)) (k k2 : String) (cid : Nat)
    (h : k ≠ k2) : mapGet (removeFromBucket m k cid) k2 = mapGet m k2 := by
  rw [removeFromBucket_def]
  by_cases hl : (((mapGet m k).getD []).filter (fun e => !(e == cid))).length = 0
  · rw [if_pos hl]; exact mapGet_mapDelete_ne m k k2 h
  · rw [if_neg hl]; exact mapGet_mapSet_ne m k k2 _ h

theorem mapGet_removeFromBucket_self (m : List (String × List Nat)) (k : String) (cid : Nat)
    (l2 : List Nat) (h : mapGet (removeFromBucket m k cid) k = some l2) :
    l2 ≠ [] ∧ cid ∉ l2 ∧ ∀ x ∈ l2, x ∈ (mapGet m k).getD [] := by
  rw [removeFromBucket_def] at h
  by_cases hl : (((mapGet m k).getD []).filter (fun e => !(e == cid))).length = 0
  · rw [if_pos hl, mapGet_mapDelete_self] at h
    exact Option.noConfusion h
  · rw [if_neg hl, mapGet_mapSet_self] at h
    have h2 := Option.some.inj h
    subst h2
    refine ⟨fun hnil => hl (by rw [hnil]; rfl), ?_, ?_⟩
    · intro hmem
      have := (List.mem_filter.mp hmem).2
      simp at this
    · intro x hx
      exact (List.mem_filter.mp hx).1

theorem mem_removeFromBucket_iff (m : List (String × List Nat)) (k : String) (cid x : Nat)
    (hx : x ≠ cid) :
    x ∈ (mapGet (removeFromBucket m k cid) k).getD [] ↔ x ∈ (mapGet m k).getD [] := by
  rw [removeFromBucket_def]
  by_cases hl : (((mapGet m k).getD []).filter (fun e => !(e == cid))).length = 0
  · rw [if_pos hl, mapGet_mapDelete_self]
    have hnil := List.length_eq_zero.mp hl
    constructor
    · intro hmem; cases hmem
    · intro hmem
      have hmem2 : x ∈ ((mapGet m k).getD []).filter (fun e => !(e == cid)) :=
        List.mem_filter.mpr ⟨hmem, by simp [hx]⟩
      rw [hnil] at hmem2
      cases hmem2
  · rw [if_neg hl, mapGet_mapSet_self]
    show x ∈ ((mapGet m k).getD []).filter (fun e => !(e == cid)) ↔ x ∈ (mapGet m k).getD []
    rw [List.mem_filter]
    simp [hx]

theorem filter_bne_idem (l : List Nat) (cid : Nat) :
    (l.filter (fun e => !(e == cid))).filter (fun e => !(e == cid)) =
      l.filter (fun e => !(e == cid)) := by
  rw [List.filter_filter]
  have hp : (fun e : Nat => (!(e == cid)) && (!(e == cid))) = (fun e : Nat => !(e == cid)) := by
    funext e; exact Bool.and_self _
  rw [hp]

theorem removeFromBucket_idem (m : List (String × List Nat)) (k : String) (cid : Nat) :
    removeFromBucket (removeFromBucket m k cid) k cid = removeFromBucket m k cid := by
  rw [removeFromBucket_def m k cid]
  by_cases hl : (((mapGet m k).getD []).filter (fun e => !(e == cid))).length = 0
  · rw [if_pos hl, removeFromBucket_def, mapGet_mapDelete_self]
    have hc : ((Option.getD (none : Option (List Nat)) []).filter
        (fun e => !(e == cid))).length = 0 := rfl
    rw [if_pos hc, mapDelete_mapDelete]
  · rw [if_neg hl, removeFromBucket_def, mapGet_mapSet_self]
    show (if ((Option.getD (some (((mapGet m k).getD []).filter (fun e => !(e == cid)))) []).filter
        (fun e => !(e == cid))).length = 0 then _ else _) = _
    rw [Option.getD_some, filter_bne_idem]
    rw [if_neg hl, mapSet_mapSet_self]

/-! ### Field-preservation lemmas for the operations -/

theorem routeMessage_fields (st : ServerState) (f : Frame) :
    (routeMessage st f).clients = st.clients ∧
    (routeMessage st f).deviceIdClients = st.deviceIdClients ∧
    (routeMessage st f).productIdClients = st.productIdClients ∧
    (routeMessage st f).nextClientId = st.nextClientId ∧
    (routeMessage st f).admitted = st.admitted ∧
    (routeMessage st f).closedIds = st.closedIds ∧
    (routeMessage st f).closeCalls = st.closeCalls ∧
    (routeMessage st f).pings = st.pings := by
  cases f with
  | malformed => simp [routeMessage]
  | parsed m =>
      simp only [routeMessage]
      repeat' split
      all_goals simp [deliverTo]

theorem rateCheck_preserves (c : Conn) (now : Nat) :
    (rateCheck c now).conn.clientId = c.clientId ∧
    (rateCheck c now).conn.role = c.role ∧
    (rateCheck c now).conn.isAlive = c.isAlive ∧
    (rateCheck c now).conn.readyOpen = c.readyOpen := by
  by_cases hA : 1000 < now - c.messageWindow <;>
    by_cases hB : 25 < c.messageCount + 1 <;>
      by_cases hT : c.isTerminating = true <;>
        simp [rateCheck, hA, hB, hT]

theorem inv_initState : Inv initState := by
  constructor <;> simp [initState]

/-- The invariant only reads six fields, so it transfers between states that
agree on them. -/
theorem inv_congr (st st2 : ServerState)
    (h1 : st2.clients = st.clients) (h2 : st2.deviceIdClients = st.deviceIdClients)
    (h3 : st2.productIdClients = st.productIdClients) (h4 : st2.admitted = st.admitted)
    (h5 : st2.closedIds = st.closedIds) (h6 : st2.nextClientId = st.nextClientId)
    (h : Inv st) : Inv st2 := by
  constructor <;> simp only [h1, h2, h3, h4, h5, h6] <;> first
    | exact h.closedNotClient
    | exact h.closedNotDevice
    | exact h.closedNotProduct
    | exact h.deviceNonempty
    | exact h.productNonempty
    | exact h.deviceRole
    | exact h.productRole
    | exact h.clientsAdmitted
    | exact h.admittedFresh
    | exact h.closedFresh
    | exact h.clientsNodup

theorem inv_handleClose (st : ServerState) (cid : Nat) (h : Inv st) :
    Inv (handleClose st cid) := by
  cases hadm : mapGet st.admitted cid with
  | none => simpa [handleClose, hadm] using h
  | some role =>
    cases role with
    | device did =>
      have hst : handleClose st cid =
          { st with clients := mapDelete st.clients cid,
                    deviceIdClients := removeFromBucket st.deviceIdClients did cid,
                    closedIds := st.closedIds ++ [cid] } := by
        simp [handleClose, hadm, teardown]
      rw [hst]
      constructor <;> dsimp only
      case closedNotClient =>
        intro x hx
        by_cases hxc : x = cid
        · subst hxc; exact mapGet_mapDelete_self _ _
        · rw [mapGet_mapDelete_ne _ _ _ (fun he => hxc he.symm)]
          rcases List.mem_append.mp hx with hx2 | hx2
          · exact h.closedNotClient x hx2
          · simp at hx2; exact absurd hx2 hxc
      case closedNotDevice =>
        intro x hx k l hget
        by_cases hk : did = k
        · subst hk
          obtain ⟨-, hcid, hsub⟩ := mapGet_removeFromBucket_self _ _ _ _ hget
          by_cases hxc : x = cid
          · subst hxc; exact hcid
          · intro hmem
            have hx2 : x ∈ st.closedIds := by
              rcases List.mem_append.mp hx with h2 | h2
              · exact h2
              · simp at h2; exact absurd h2 hxc
            have hx3 := hsub x hmem
            cases hg : mapGet st.deviceIdClients did with
            | none => rw [hg] at hx3; cases hx3
            | some l0 =>
                rw [hg] at hx3
                exact h.closedNotDevice x hx2 did l0 hg hx3
        · rw [mapGet_removeFromBucket_ne _ _ _ _ hk] at hget
          by_cases hxc : x = cid
          · subst hxc
            intro hmem
            have := h.deviceRole k l hget x hmem
            rw [hadm] at this
            have := (Option.some.inj this)
            exact hk (Role.device.inj this)
          · have hx2 : x ∈ st.closedIds := by
              rcases List.mem_append.mp hx with h2 | h2
              · exact h2
              · simp at h2; exact absurd h2 hxc
            exact h.closedNotDevice x hx2 k l hget
      case closedNotProduct =>
        intro x hx k l hget
        by_cases hxc : x = cid
        · subst hxc
          intro hmem
          have := h.productRole k l hget x hmem
          rw [hadm] at this
          exact Role.noConfusion (Option.some.inj this)
        · have hx2 : x ∈ st.closedIds := by
            rcases List.mem_append.mp hx with h2 | h2
            · exact h2
            · simp at h2; exact absurd h2 hxc
          exact h.closedNotProduct x hx2 k l hget
      case deviceNonempty =>
        intro k l hget
        by_cases hk : did = k
        · subst hk; exact (mapGet_removeFromBucket_self _ _ _ _ hget).1
        · rw [mapGet_removeFromBucket_ne _ _ _ _ hk] at hget
          exact h.deviceNonempty k l hget
      case productNonempty => exact h.productNonempty
      case deviceRole =>
        intro k l hget x hmem
        by_cases hk : did = k
        · subst hk
          obtain ⟨-, -, hsub⟩ := mapGet_removeFromBucket_self _ _ _ _ hget
          have hx3 := hsub x hmem
          cases hg : mapGet st.deviceIdClients did with
          | none => rw [hg] at hx3; cases hx3
          | some l0 =>
              rw [hg] at hx3
              exact h.deviceRole did l0 hg x hx3
        · rw [mapGet_removeFromBucket_ne _ _ _ _ hk] at hget
          exact h.deviceRole k l hget x hmem
      case productRole => exact h.productRole
      case clientsAdmitted =>
        intro x c hget
        by_cases hxc : x = cid
        · subst hxc; rw [mapGet_mapDelete_self] at hget; exact Option.noConfusion hget
        · rw [mapGet_mapDelete_ne _ _ _ (fun he => hxc he.symm)] at hget
          exact h.clientsAdmitted x c hget
      case admittedFresh => exact h.admittedFresh
      case closedFresh =>
        intro x hx
        rcases List.mem_append.mp hx with hx2 | hx2
        · exact h.closedFresh x hx2
        · simp at hx2; subst hx2; exact h.admittedFresh x _ hadm
      case clientsNodup =>
        exact List.Nodup.sublist (keys_mapDelete_sublist st.clients cid) h.clientsNodup
    | product pid =>
      have hst : handleClose st cid =
          { st with clients := mapDelete st.clients cid,
                    productIdClients := removeFromBucket st.productIdClients pid cid,
                    closedIds := st.closedIds ++ [cid] } := by
        simp [handleClose, hadm, teardown]
      rw [hst]
      constructor <;> dsimp only
      case closedNotClient =>
        intro x hx
        by_cases hxc : x = cid
        · subst hxc; exact mapGet_mapDelete_self _ _
        · rw [mapGet_mapDelete_ne _ _ _ (fun he => hxc he.symm)]
          rcases List.mem_append.mp hx with hx2 | hx2
          · exact h.closedNotClient x hx2
          · simp at hx2; exact absurd hx2 hxc
      case closedNotProduct =>
        intro x hx k l hget
        by_cases hk : pid = k
        · subst hk
          obtain ⟨-, hcid, hsub⟩ := mapGet_removeFromBucket_self _ _ _ _ hget
          by_cases hxc : x = cid
          · subst hxc; exact hcid
          · intro hmem
            have hx2 : x ∈ st.closedIds := by
              rcases List.mem_append.mp hx with h2 | h2
              · exact h2
              · simp at h2; exact absurd h2 hxc
            have hx3 := hsub x hmem
            cases hg : mapGet st.productIdClients pid with
            | none => rw [hg] at hx3; cases hx3
            | some l0 =>
                rw [hg] at hx3
                exact h.closedNotProduct x hx2 pid l0 hg hx3
        · rw [mapGet_removeFromBucket_ne _ _ _ _ hk] at hget
          by_cases hxc : x = cid
          · subst hxc
            intro hmem
            have := h.productRole k l hget x hmem
            rw [hadm] at this
            have := (Option.some.inj this)
            exact hk (Role.product.inj this)
          · have hx2 : x ∈ st.closedIds := by
              rcases List.mem_append.mp hx with h2 | h2
              · exact h2
              · simp at h2; exact absurd h2 hxc
            exact h.closedNotProduct x hx2 k l hget
      case closedNotDevice =>
        intro x hx k l hget
        by_cases hxc : x = cid
        · subst hxc
          intro hmem
          have := h.deviceRole k l hget x hmem
          rw [hadm] at this
          exact Role.noConfusion (Option.some.inj this)
        · have hx2 : x ∈ st.closedIds := by
            rcases List.mem_append.mp hx with h2 | h2
            · exact h2
            · simp at h2; exact absurd h2 hxc
          exact h.closedNotDevice x hx2 k l hget
      case productNonempty =>
        intro k l hget
        by_cases hk : pid = k
        · subst hk; exact (mapGet_removeFromBucket_self _ _ _ _ hget).1
        · rw [mapGet_removeFromBucket_ne _ _ _ _ hk] at hget
          exact h.productNonempty k l hget
      case deviceNonempty => exact h.deviceNonempty
      case productRole =>
        intro k l hget x hmem
        by_cases hk : pid = k
        · subst hk
          obtain ⟨-, -, hsub⟩ := mapGet_removeFromBucket_self _ _ _ _ hget
          have hx3 := hsub x hmem
          cases hg : mapGet st.productIdClients pid with
          | none => rw [hg] at hx3; cases hx3
          | some l0 =>
              rw [hg] at hx3
              exact h.productRole pid l0 hg x hx3
        · rw [mapGet_removeFromBucket_ne _ _ _ _ hk] at hget
          exact h.productRole k l hget x hmem
      case deviceRole => exact h.deviceRole
      case clientsAdmitted =>
        intro x c hget
        by_cases hxc : x = cid
        · subst hxc; rw [mapGet_mapDelete_self] at hget; exact Option.noConfusion hget
        · rw [mapGet_mapDelete_ne _ _ _ (fun he => hxc he.symm)] at hget
          exact h.clientsAdmitted x c hget
      case admittedFresh => exact h.admittedFresh
      case closedFresh =>
        intro x hx
        rcases List.mem_append.mp hx with hx2 | hx2
        · exact h.closedFresh x hx2
        · simp at hx2; subst hx2; exact h.admittedFresh x _ hadm
      case clientsNodup =>
        exact List.Nodup.sublist (keys_mapDelete_sublist st.clients cid) h.clientsNodup

/-- Overwriting an existing client entry with a connection of the same role
preserves the invariant. -/
theorem inv_updateClient (st : ServerState) (cid : Nat) (c c2 : Conn)
    (hc : mapGet st.clients cid = some c) (hrole : c2.role = c.role) (h : Inv st) :
    Inv { st with clients := mapSet st.clients cid c2 } := by
  constructor <;> dsimp only
  case closedNotClient =>
    intro x hx
    have hnone := h.closedNotClient x hx
    have hxc : x ≠ cid := fun he => by rw [he, hc] at hnone; exact Option.noConfusion hnone
    rw [mapGet_mapSet_ne _ _ _ _ (fun he => hxc he.symm)]
    exact hnone
  case closedNotDevice => exact h.closedNotDevice
  case closedNotProduct => exact h.closedNotProduct
  case deviceNonempty => exact h.deviceNonempty
  case productNonempty => exact h.productNonempty
  case deviceRole => exact h.deviceRole
  case productRole => exact h.productRole
  case clientsAdmitted =>
    intro x cx hget
    by_cases hxc : x = cid
    · subst hxc
      rw [mapGet_mapSet_self] at hget
      have he := Option.some.inj hget
      subst he
      rw [hrole]
      exact h.clientsAdmitted _ c hc
    · rw [mapGet_mapSet_ne _ _ _ _ (fun he => hxc he.symm)] at hget
      exact h.clientsAdmitted x cx hget
  case admittedFresh => exact h.admittedFresh
  case closedFresh => exact h.closedFresh
  case clientsNodup =>
    rw [keys_mapSet_of_mapGet_some st.clients cid c2 c hc]
    exact h.clientsNodup

theorem inv_handlePong (st : ServerState) (cid : Nat) (h : Inv st) :
    Inv (handlePong st cid) := by
  cases hc : mapGet st.clients cid with
  | none => simpa [handlePong, hc] using h
  | some c =>
      have hst : handlePong st cid =
          { st with clients := mapSet st.clients cid { c with isAlive := true } } := by
        simp [handlePong, hc]
      rw [hst]
      exact inv_updateClient st cid c _ hc rfl h

theorem inv_handleMessage (st : ServerState) (cid now : Nat) (f : Frame) (h : Inv st) :
    Inv (handleMessage st cid now f) := by
  cases hc : mapGet st.clients cid with
  | none => simpa [handleMessage, hc] using h
  | some c =>
      unfold handleMessage
      rw [hc]
      dsimp only
      have base : Inv { st with clients := mapSet st.clients cid (rateCheck c now).conn } :=
        inv_updateClient st cid c _ hc (rateCheck_preserves c now).2.1 h
      have h1 : Inv { st with clients := mapSet st.clients cid (rateCheck c now).conn,
                              closeCalls := st.closeCalls ++
                                closeCallLog cid (rateCheck c now).closeCall } :=
        inv_congr { st with clients := mapSet st.clients cid (rateCheck c now).conn } _
          rfl rfl rfl rfl rfl rfl base
      by_cases hl : (rateCheck c now).limited = true
      · rw [if_pos hl]; exact h1
      · rw [if_neg hl]
        obtain ⟨e1, e2, e3, e4, e5, e6, -, -⟩ := routeMessage_fields _ f
        exact inv_congr _ _ e1 e2 e3 e5 e6 e4 h1

theorem inv_bumpNext (st : ServerState) (h : Inv st) :
    Inv { st with nextClientId := st.nextClientId + 1 } := by
  constructor <;> dsimp only
  case closedNotClient => exact h.closedNotClient
  case closedNotDevice => exact h.closedNotDevice
  case closedNotProduct => exact h.closedNotProduct
  case deviceNonempty => exact h.deviceNonempty
  case productNonempty => exact h.productNonempty
  case deviceRole => exact h.deviceRole
  case productRole => exact h.productRole
  case clientsAdmitted => exact h.clientsAdmitted
  case admittedFresh =>
    intro cid r hget
    exact Nat.lt_succ_of_lt (h.admittedFresh cid r hget)
  case closedFresh =>
    intro cid hmem
    exact Nat.lt_succ_of_lt (h.closedFresh cid hmem)
  case clientsNodup => exact h.clientsNodup

theorem admitted_fresh_none (st : ServerState) (h : Inv st) :
    mapGet st.admitted st.nextClientId = none := by
  cases hg : mapGet st.admitted st.nextClientId with
  | none => rfl
  | some r => exact absurd (h.admittedFresh _ _ hg) (lt_irrefl _)

theorem clients_fresh_none (st : ServerState) (h : Inv st) :
    mapGet st.clients st.nextClientId = none := by
  cases hg : mapGet st.clients st.nextClientId with
  | none => rfl
  | some c =>
      have := h.clientsAdmitted _ c hg
      rw [admitted_fresh_none st h] at this
      exact Option.noConfusion this

theorem closed_fresh_not_mem (st : ServerState) (h : Inv st) :
    st.nextClientId ∉ st.closedIds :=
  fun hmem => absurd (h.closedFresh _ hmem) (lt_irrefl _)

/-- Admitting a fresh device connection preserves the invariant. -/
theorem inv_admit_device (st : ServerState) (now : Nat) (X : String) (h : Inv st) :
    Inv { st with
      clients := mapSet st.clients st.nextClientId
        { clientId := st.nextClientId, role := Role.device X, isAlive := true,
          isTerminating := false, messageCount := 0, messageWindow := now,
          readyOpen := true },
      deviceIdClients := mapSet st.deviceIdClients X
        (((mapGet st.deviceIdClients X).getD []) ++ [st.nextClientId]),
      nextClientId := st.nextClientId + 1,
      admitted := mapSet st.admitted st.nextClientId (Role.device X) } := by
  have hfadm := admitted_fresh_none st h
  have hfcli := clients_fresh_none st h
  have hfclosed := closed_fresh_not_mem st h
  constructor <;> dsimp only
  case closedNotClient =>
    intro x hx
    have hxn : x ≠ st.nextClientId := fun he => hfclosed (he ▸ hx)
    rw [mapGet_mapSet_ne _ _ _ _ (fun he => hxn he.symm)]
    exact h.closedNotClient x hx
  case closedNotDevice =>
    intro x hx k l hget
    by_cases hk : X = k
    · subst hk
      rw [mapGet_mapSet_self] at hget
      have he := Option.some.inj hget
      subst he
      intro hmem
      rcases List.mem_append.mp hmem with h2 | h2
      · cases hg : mapGet st.deviceIdClients X with
        | none => rw [hg] at h2; cases h2
        | some l0 => rw [hg] at h2; exact h.closedNotDevice x hx X l0 hg h2
      · simp at h2; subst h2; exact hfclosed hx
    · rw [mapGet_mapSet_ne _ _ _ _ hk] at hget
      exact h.closedNotDevice x hx k l hget
  case closedNotProduct => exact h.closedNotProduct
  case deviceNonempty =>
    intro k l hget
    by_cases hk : X = k
    · subst hk
      rw [mapGet_mapSet_self] at hget
      have he := Option.some.inj hget
      subst he
      simp
    · rw [mapGet_mapSet_ne _ _ _ _ hk] at hget
      exact h.deviceNonempty k l hget
  case productNonempty => exact h.productNonempty
  case deviceRole =>
    intro k l hget x hmem
    by_cases hk : X = k
    · subst hk
      rw [mapGet_mapSet_self] at hget
      have he := Option.some.inj hget
      subst he
      rcases List.mem_append.mp hmem with h2 | h2
      · cases hg : mapGet st.deviceIdClients X with
        | none => rw [hg] at h2; cases h2
        | some l0 =>
            rw [hg] at h2
            have hr := h.deviceRole X l0 hg x h2
            have hxn : x ≠ st.nextClientId :=
              fun he => absurd (he ▸ h.admittedFresh x _ hr) (lt_irrefl _)
            rw [mapGet_mapSet_ne _ _ _ _ (fun he => hxn he.symm)]
            exact hr
      · simp at h2; subst h2; rw [mapGet_mapSet_self]
    · rw [mapGet_mapSet_ne _ _ _ _ hk] at hget
      have hr := h.deviceRole k l hget x hmem
      have hxn : x ≠ st.nextClientId :=
        fun he => absurd (he ▸ h.admittedFresh x _ hr) (lt_irrefl _)
      rw [mapGet_mapSet_ne _ _ _ _ (fun he => hxn he.symm)]
      exact hr
  case productRole =>
    intro k l hget x hmem
    have hr := h.productRole k l hget x hmem
    have hxn : x ≠ st.nextClientId :=
      fun he => absurd (he ▸ h.admittedFresh x _ hr) (lt_irrefl _)
    rw [mapGet_mapSet_ne _ _ _ _ (fun he => hxn he.symm)]
    exact hr
  case clientsAdmitted =>
    intro x cx hget
    by_cases hxn : x = st.nextClientId
    · subst hxn
      rw [mapGet_mapSet_self] at hget
      have he := Option.some.inj hget
      subst he
      rw [mapGet_mapSet_self]
    · rw [mapGet_mapSet_ne _ _ _ _ (fun he => hxn he.symm)] at hget
      rw [mapGet_mapSet_ne _ _ _ _ (fun he => hxn he.symm)]
      exact h.clientsAdmitted x cx hget
  case admittedFresh =>
    intro x r hget
    rcases mapGet_mapSet_cases _ _ _ _ _ hget with he | hold
    · rw [← he]; exact Nat.lt_succ_self _
    · exact Nat.lt_succ_of_lt (h.admittedFresh x r hold)
  case closedFresh =>
    intro x hx
    exact Nat.lt_succ_of_lt (h.closedFresh x hx)
  case clientsNodup =>
    rw [mapSet_of_mapGet_none _ _ _ hfcli, List.map_append]
    refine List.Nodup.append h.clientsNodup (List.nodup_singleton _) ?_
    intro a ha hb
    simp at hb
    subst hb
    exact (mapGet_eq_none_iff _ _).mp hfcli ha

/-- Admitting a fresh product connection preserves the invariant. -/
theorem inv_admit_product (st : ServerState) (now : Nat) (X : String) (h : Inv st) :
    Inv { st with
      clients := mapSet st.clients st.nextClientId
        { clientId := st.nextClientId, role := Role.product X, isAlive := true,
          isTerminating := false, messageCount := 0, messageWindow := now,
          readyOpen := true },
      productIdClients := mapSet st.productIdClients X
        (((mapGet st.productIdClients X).getD []) ++ [st.nextClientId]),
      nextClientId := st.nextClientId + 1,
      admitted := mapSet st.admitted st.nextClientId (Role.product X) } := by
  have hfadm := admitted_fresh_none st h
  have hfcli := clients_fresh_none st h
  have hfclosed := closed_fresh_not_mem st h
  constructor <;> dsimp only
  case closedNotClient =>
    intro x hx
    have hxn : x ≠ st.nextClientId := fun he => hfclosed (he ▸ hx)
    rw [mapGet_mapSet_ne _ _ _ _ (fun he => hxn he.symm)]
    exact h.closedNotClient x hx
  case closedNotProduct =>
    intro x hx k l hget
    by_cases hk : X = k
    · subst hk
      rw [mapGet_mapSet_self] at hget
      have he := Option.some.inj hget
      subst he
      intro hmem
      rcases List.mem_append.mp hmem with h2 | h2
      · cases hg : mapGet st.productIdClients X with
        | none => rw [hg] at h2; cases h2
        | some l0 => rw [hg] at h2; exact h.closedNotProduct x hx X l0 hg h2
      · simp at h2; subst h2; exact hfclosed hx
    · rw [mapGet_mapSet_ne _ _ _ _ hk] at hget
      exact h.closedNotProduct x hx k l hget
  case closedNotDevice => exact h.closedNotDevice
  case productNonempty =>
    intro k l hget
    by_cases hk : X = k
    · subst hk
      rw [mapGet_mapSet_self] at hget
      have he := Option.some.inj hget
      subst he
      simp
    · rw [mapGet_mapSet_ne _ _ _ _ hk] at hget
      exact h.productNonempty k l hget
  case deviceNonempty => exact h.deviceNonempty
  case productRole =>
    intro k l hget x hmem
    by_cases hk : X = k
    · subst hk
      rw [mapGet_mapSet_self] at hget
      have he := Option.some.inj hget
      subst he
      rcases List.mem_append.mp hmem with h2 | h2
      · cases hg : mapGet st.productIdClients X with
        | none => rw [hg] at h2; cases h2
        | some l0 =>
            rw [hg] at h2
            have hr := h.productRole X l0 hg x h2
            have hxn : x ≠ st.nextClientId :=
              fun he => absurd (he ▸ h.admittedFresh x _ hr) (lt_irrefl _)
            rw [mapGet_mapSet_ne _ _ _ _ (fun he => hxn he.symm)]
            exact hr
      · simp at h2; subst h2; rw [mapGet_mapSet_self]
    · rw [mapGet_mapSet_ne _ _ _ _ hk] at hget
      have hr := h.productRole k l hget x hmem
      have hxn : x ≠ st.nextClientId :=
        fun he => absurd (he ▸ h.admittedFresh x _ hr) (lt_irrefl _)
      rw [mapGet_mapSet_ne _ _ _ _ (fun he => hxn he.symm)]
      exact hr
  case deviceRole =>
    intro k l hget x hmem
    have hr := h.deviceRole k l hget x hmem
    have hxn : x ≠ st.nextClientId :=
      fun he => absurd (he ▸ h.admittedFresh x _ hr) (lt_irrefl _)
    rw [mapGet_mapSet_ne _ _ _ _ (fun he => hxn he.symm)]
    exact hr
  case clientsAdmitted =>
    intro x cx hget
    by_cases hxn : x = st.nextClientId
    · subst hxn
      rw [mapGet_mapSet_self] at hget
      have he := Option.some.inj hget
      subst he
      rw [mapGet_mapSet_self]
    · rw [mapGet_mapSet_ne _ _ _ _ (fun he => hxn he.symm)] at hget
      rw [mapGet_mapSet_ne _ _ _ _ (fun he => hxn he.symm)]
      exact h.clientsAdmitted x cx hget
  case admittedFresh =>
    intro x r hget
    rcases mapGet_mapSet_cases _ _ _ _ _ hget with he | hold
    · rw [← he]; exact Nat.lt_succ_self _
    · exact Nat.lt_succ_of_lt (h.admittedFresh x r hold)
  case closedFresh =>
    intro x hx
    exact Nat.lt_succ_of_lt (h.closedFresh x hx)
  case clientsNodup =>
    rw [mapSet_of_mapGet_none _ _ _ hfcli, List.map_append]
    refine List.Nodup.append h.clientsNodup (List.nodup_singleton _) ?_
    intro a ha hb
    simp at hb
    subst hb
    exact (mapGet_eq_none_iff _ _).mp hfcli ha

theorem inv_handleConnection (st : ServerState) (now : Nat) (d p : Option String)
    (h : Inv st) : Inv (handleConnection st now d p).1 := by
  by_cases hd : truthy d = true <;> by_cases hp : truthy p = true
  · have hst : (handleConnection st now d p).1 =
        { st with nextClientId := st.nextClientId + 1 } := by
      simp [handleConnection, hd, hp]
    rw [hst]
    exact inv_bumpNext st h
  · have hst : (handleConnection st now d p).1 =
        { st with
          clients := mapSet st.clients st.nextClientId
            { clientId := st.nextClientId, role := Role.device (d.getD ""),
              isAlive := true, isTerminating := false, messageCount := 0,
              messageWindow := now, readyOpen := true },
          deviceIdClients := mapSet st.deviceIdClients (d.getD "")
            (((mapGet st.deviceIdClients (d.getD "")).getD []) ++ [st.nextClientId]),
          nextClientId := st.nextClientId + 1,
          admitted := mapSet st.admitted st.nextClientId (Role.device (d.getD "")) } := by
      simp [handleConnection, hd, hp]
    rw [hst]
    exact inv_admit_device st now (d.getD "") h
  · have hst : (handleConnection st now d p).1 =
        { st with
          clients := mapSet st.clients st.nextClientId
            { clientId := st.nextClientId, role := Role.product (p.getD ""),
              isAlive := true, isTerminating := false, messageCount := 0,
              messageWindow := now, readyOpen := true },
          productIdClients := mapSet st.productIdClients (p.getD "")
            (((mapGet st.productIdClients (p.getD "")).getD []) ++ [st.nextClientId]),
          nextClientId := st.nextClientId + 1,
          admitted := mapSet st.admitted st.nextClientId (Role.product (p.getD "")) } := by
      simp [handleConnection, hd, hp]
    rw [hst]
    exact inv_admit_product st now (p.getD "") h
  · have hst : (handleConnection st now d p).1 =
        { st with nextClientId := st.nextClientId + 1 } := by
      simp [handleConnection, hd, hp]
    rw [hst]
    exact inv_bumpNext st h

theorem inv_tickConn (st : ServerState) (cid : Nat) (h : Inv st) : Inv (tickConn st cid) := by
  cases hc : mapGet st.clients cid with
  | none => simpa [tickConn, hc] using h
  | some c =>
      by_cases ha : c.isAlive = false
      · have hst : tickConn st cid = handleClose st cid := by simp [tickConn, hc, ha]
        rw [hst]
        exact inv_handleClose st cid h
      · have hst : tickConn st cid =
            { st with clients := mapSet st.clients cid { c with isAlive := false },
                      pings := st.pings ++ [cid] } := by
          simp [tickConn, hc, ha]
        rw [hst]
        exact inv_congr { st with clients := mapSet st.clients cid { c with isAlive := false } } _
          rfl rfl rfl rfl rfl rfl (inv_updateClient st cid c _ hc rfl h)

theorem inv_foldl_tickConn (ks : List Nat) (s : ServerState) (h : Inv s) :
    Inv (ks.foldl tickConn s) := by
  induction ks generalizing s with
  | nil => exact h
  | cons k rest ih => exact ih _ (inv_tickConn s k h)

theorem inv_heartbeatTick (st : ServerState) (h : Inv st) : Inv (heartbeatTick st) :=
  inv_foldl_tickConn _ st h

theorem inv_step (st : ServerState) (e : Event) (h : Inv st) : Inv (step st e) := by
  cases e with
  | connect now d p => exact inv_handleConnection st now d p h
  | message cid now f => exact inv_handleMessage st cid now f h
  | pong cid => exact inv_handlePong st cid h
  | close cid => exact inv_handleClose st cid h
  | tick => exact inv_heartbeatTick st h

theorem inv_foldl_step (es : List Event) (s : ServerState) (h : Inv s) :
    Inv (es.foldl step s) := by
  induction es generalizing s with
  | nil => exact h
  | cons e rest ih => exact ih _ (inv_step s e h)

theorem inv_reachable (st : ServerState) (h : Reachable st) : Inv st := by
  obtain ⟨es, rfl⟩ := h
  exact inv_foldl_step es initState inv_initState

theorem reachable_step (st : ServerState) (e : Event) (h : Reachable st) :
    Reachable (step st e) := by
  obtain ⟨es, rfl⟩ := h
  exact ⟨es ++ [e], by simp [run, List.foldl_append]⟩

/-! ### Heartbeat behaviour -/

theorem handleClose_clients_ne (s : ServerState) (k cid : Nat) (hne : cid ≠ k) :
    mapGet (handleClose s k).clients cid = mapGet s.clients cid := by
  cases hadm : mapGet s.admitted k with
  | none => simp [handleClose, hadm]
  | some role =>
      cases role with
      | device did =>
          simp only [handleClose, hadm, teardown]
          exact mapGet_mapDelete_ne _ _ _ (fun he => hne he.symm)
      | product pid =>
          simp only [handleClose, hadm, teardown]
          exact mapGet_mapDelete_ne _ _ _ (fun he => hne he.symm)

theorem handleClose_admitted (s : ServerState) (k : Nat) :
    (handleClose s k).admitted = s.admitted := by
  cases hadm : mapGet s.admitted k with
  | none => simp [handleClose, hadm]
  | some role => cases role <;> simp [handleClose, hadm, teardown]

theorem handleClose_closed_mono (s : ServerState) (k x : Nat) (h : x ∈ s.closedIds) :
    x ∈ (handleClose s k).closedIds := by
  cases hadm : mapGet s.admitted k with
  | none => simpa [handleClose, hadm] using h
  | some role => cases role <;> simp [handleClose, hadm, teardown] <;> exact Or.inl h

theorem handleClose_pings (s : ServerState) (k : Nat) : (handleClose s k).pings = s.pings := by
  cases hadm : mapGet s.admitted k with
  | none => simp [handleClose, hadm]
  | some role => cases role <;> simp [handleClose, hadm, teardown]

theorem tickConn_clients_ne (s : ServerState) (k cid : Nat) (hne : cid ≠ k) :
    mapGet (tickConn s k).clients cid = mapGet s.clients cid := by
  cases hck : mapGet s.clients k with
  | none => simp [tickConn, hck]
  | some ck =>
      by_cases ha : ck.isAlive = false
      · have hst : tickConn s k = handleClose s k := by simp [tickConn, hck, ha]
        rw [hst]
        exact handleClose_clients_ne s k cid hne
      · have hst : tickConn s k =
            { s with clients := mapSet s.clients k { ck with isAlive := false },
                     pings := s.pings ++ [k] } := by
          simp [tickConn, hck, ha]
        rw [hst]
        exact mapGet_mapSet_ne _ _ _ _ (fun he => hne he.symm)

theorem tickConn_admitted (s : ServerState) (k : Nat) :
    (tickConn s k).admitted = s.admitted := by
  cases hck : mapGet s.clients k with
  | none => simp [tickConn, hck]
  | some ck =>
      by_cases ha : ck.isAlive = false
      · have hst : tickConn s k = handleClose s k := by simp [tickConn, hck, ha]
        rw [hst]; exact handleClose_admitted s k
      · simp [tickConn, hck, ha]

theorem tickConn_closed_mono (s : ServerState) (k x : Nat) (h : x ∈ s.closedIds) :
    x ∈ (tickConn s k).closedIds := by
  cases hck : mapGet s.clients k with
  | none => simpa [tickConn, hck] using h
  | some ck =>
      by_cases ha : ck.isAlive = false
      · have hst : tickConn s k = handleClose s k := by simp [tickConn, hck, ha]
        rw [hst]; exact handleClose_closed_mono s k x h
      · simpa [tickConn, hck, ha] using h

theorem tickConn_pings_mono (s : ServerState) (k x : Nat) (h : x ∈ s.pings) :
    x ∈ (tickConn s k).pings := by
  cases hck : mapGet s.clients k with
  | none => simpa [tickConn, hck] using h
  | some ck =>
      by_cases ha : ck.isAlive = false
      · have hst : tickConn s k = handleClose s k := by simp [tickConn, hck, ha]
        rw [hst, handleClose_pings]; exact h
      · simp [tickConn, hck, ha]
        exact Or.inl h

theorem tickConn_clients_none (s : ServerState) (k cid : Nat)
    (h : mapGet s.clients cid = none) : mapGet (tickConn s k).clients cid = none := by
  by_cases hne : cid = k
  · subst hne; simp [tickConn, h]
  · rw [tickConn_clients_ne s k cid hne]; exact h

theorem foldl_tickConn_clients_none (ks : List Nat) (s : ServerState) (cid : Nat)
    (h : mapGet s.clients cid = none) :
    mapGet (ks.foldl tickConn s).clients cid = none := by
  induction ks generalizing s with
  | nil => exact h
  | cons k rest ih => exact ih _ (tickConn_clients_none s k cid h)

theorem foldl_tickConn_closed_mono (ks : List Nat) (s : ServerState) (x : Nat)
    (h : x ∈ s.closedIds) : x ∈ (ks.foldl tickConn s).closedIds := by
  induction ks generalizing s with
  | nil => exact h
  | cons k rest ih => exact ih _ (tickConn_closed_mono s k x h)

theorem foldl_tickConn_pings_mono (ks : List Nat) (s : ServerState) (x : Nat)
    (h : x ∈ s.pings) : x ∈ (ks.foldl tickConn s).pings := by
  induction ks generalizing s with
  | nil => exact h
  | cons k rest ih => exact ih _ (tickConn_pings_mono s k x h)

theorem foldl_tickConn_clients_not_mem (ks : List Nat) (s : ServerState) (cid : Nat)
    (h : cid ∉ ks) :
    mapGet (ks.foldl tickConn s).clients cid = mapGet s.clients cid := by
  induction ks generalizing s with
  | nil => rfl
  | cons k rest ih =>
      have hne : cid ≠ k := fun he => h (he ▸ List.mem_cons_self k rest)
      rw [List.foldl_cons, ih _ (fun hm => h (List.mem_cons_of_mem k hm)),
        tickConn_clients_ne s k cid hne]

theorem tickFold_dead (ks : List Nat) :
    ∀ (s : ServerState) (cid : Nat) (c : Conn) (r : Role), ks.Nodup → cid ∈ ks →
      mapGet s.clients cid = some c → c.isAlive = false → mapGet s.admitted cid = some r →
      mapGet (ks.foldl tickConn s).clients cid = none ∧
        cid ∈ (ks.foldl tickConn s).closedIds := by
  induction ks with
  | nil => intro s cid c r _ hmem; cases hmem
  | cons k rest ih =>
      intro s cid c r hnd hmem hc ha hadm
      by_cases hk : k = cid
      · subst hk
        have hstep : tickConn s k = handleClose s k := by simp [tickConn, hc, ha]
        have hclients : mapGet (handleClose s k).clients k = none := by
          cases r <;> simp [handleClose, hadm, teardown]
        have hclosed : k ∈ (handleClose s k).closedIds := by
          cases r <;> simp [handleClose, hadm, teardown]
        constructor
        · rw [List.foldl_cons, hstep]
          exact foldl_tickConn_clients_none rest _ k hclients
        · rw [List.foldl_cons, hstep]
          exact foldl_tickConn_closed_mono rest _ k hclosed
      · have hne : cid ≠ k := fun he => hk he.symm
        have hmem2 : cid ∈ rest := by
          rcases List.mem_cons.mp hmem with he | hm
          · exact absurd he hne
          · exact hm
        rw [List.foldl_cons]
        refine ih (tickConn s k) cid c r (List.nodup_cons.mp hnd).2 hmem2 ?_ ha ?_
        · rw [tickConn_clients_ne s k cid hne]; exact hc
        · rw [tickConn_admitted]; exact hadm

theorem tickFold_alive (ks : List Nat) :
    ∀ (s : ServerState) (cid : Nat) (c : Conn), ks.Nodup → cid ∈ ks →
      mapGet s.clients cid = some c → c.isAlive = true →
      mapGet (ks.foldl tickConn s).clients cid = some { c with isAlive := false } ∧
        cid ∈ (ks.foldl tickConn s).pings := by
  induction ks with
  | nil => intro s cid c _ hmem; cases hmem
  | cons k rest ih =>
      intro s cid c hnd hmem hc ha
      by_cases hk : k = cid
      · subst hk
        have hstep : tickConn s k =
            { s with clients := mapSet s.clients k { c with isAlive := false },
                     pings := s.pings ++ [k] } := by
          simp [tickConn, hc, ha]
        have hnotmem : k ∉ rest := (List.nodup_cons.mp hnd).1
        constructor
        · rw [List.foldl_cons, hstep, foldl_tickConn_clients_not_mem rest _ k hnotmem]
          exact mapGet_mapSet_self _ _ _
        · rw [List.foldl_cons, hstep]
          exact foldl_tickConn_pings_mono rest _ k (by simp)
      · have hne : cid ≠ k := fun he => hk he.symm
        have hmem2 : cid ∈ rest := by
          rcases List.mem_cons.mp hmem with he | hm
          · exact absurd he hne
          · exact hm
        rw [List.foldl_cons]
        refine ih (tickConn s k) cid c (List.nodup_cons.mp hnd).2 hmem2 ?_ ha
        rw [tickConn_clients_ne s k cid hne]; exact hc

theorem heartbeatTick_dead (st : ServerState) (h : Inv st) (cid : Nat) (c : Conn)
    (hc : mapGet st.clients cid = some c) (ha : c.isAlive = false) :
    mapGet (heartbeatTick st).clients cid = none ∧ cid ∈ (heartbeatTick st).closedIds :=
  tickFold_dead _ st cid c c.role h.clientsNodup (mapGet_some_mem_keys _ _ _ hc) hc ha
    (h.clientsAdmitted cid c hc)

theorem heartbeatTick_alive (st : ServerState) (h : Inv st) (cid : Nat) (c : Conn)
    (hc : mapGet st.clients cid = some c) (ha : c.isAlive = true) :
    mapGet (heartbeatTick st).clients cid = some { c with isAlive := false } ∧
      cid ∈ (heartbeatTick st).pings :=
  tickFold_alive _ st cid c h.clientsNodup (mapGet_some_mem_keys _ _ _ hc) hc ha

/-! ### Router helper lemmas -/

theorem mem_resolveRecipients (clients : List (Nat × Conn)) (targets : List Nat)
    (tid : Nat) (c : Conn) (hc : mapGet clients tid = some c) (hopen : c.readyOpen = true)
    (hmem : tid ∈ targets) : tid ∈ resolveRecipients clients targets := by
  refine List.mem_filter.mpr ⟨hmem, ?_⟩
  rw [hc]
  exact hopen

theorem resolveRecipients_subset (clients : List (Nat × Conn)) (targets : List Nat)
    (tid : Nat) (h : tid ∈ resolveRecipients clients targets) : tid ∈ targets :=
  (List.mem_filter.mp h).1

/-! ### The claims -/

/-- C6: running the teardown (close) logic twice for the same connection is a
no-op the second time: it raises no error and leaves the Connection Table and
both Identifier Registry mappings in a state identical to the state after a
single invocation. -/
theorem claim_C6 (st : ServerState) (cid : Nat) (role : Role) :
    teardown (teardown st cid role) cid role = teardown st cid role := by
  cases role <;> cases st <;>
    simp [teardown, mapDelete_mapDelete, removeFromBucket_idem]

/-- C10: teardown of a connection changes only that connection's entries — any
other connection's table entry, every bucket of the other namespace, every
bucket under a different identifier, and every other id inside its own bucket
are preserved. -/
theorem claim_C10 (st : ServerState) (cid : Nat) (role : Role) :
    (∀ d2, d2 ≠ cid → mapGet (teardown st cid role).clients d2 = mapGet st.clients d2) ∧
    (∀ did, role = Role.device did →
      (teardown st cid role).productIdClients = st.productIdClients ∧
      (∀ k, k ≠ did →
        mapGet (teardown st cid role).deviceIdClients k = mapGet st.deviceIdClients k) ∧
      (∀ x, x ≠ cid →
        (x ∈ (mapGet (teardown st cid role).deviceIdClients did).getD [] ↔
          x ∈ (mapGet st.deviceIdClients did).getD []))) ∧
    (∀ pid, role = Role.product pid →
      (teardown st cid role).deviceIdClients = st.deviceIdClients ∧
      (∀ k, k ≠ pid →
        mapGet (teardown st cid role).productIdClients k = mapGet st.productIdClients k) ∧
      (∀ x, x ≠ cid →
        (x ∈ (mapGet (teardown st cid role).productIdClients pid).getD [] ↔
          x ∈ (mapGet st.productIdClients pid).getD []))) := by
  refine ⟨?_, ?_, ?_⟩
  · intro d2 hne
    cases role <;> simp only [teardown] <;>
      exact mapGet_mapDelete_ne _ _ _ (fun he => hne he.symm)
  · intro did hrole
    subst hrole
    simp only [teardown]
    refine ⟨trivial, ?_, ?_⟩
    · intro k hk
      exact mapGet_removeFromBucket_ne _ _ _ _ (fun he => hk he.symm)
    · intro x hx
      exact mem_removeFromBucket_iff _ _ _ _ hx
  · intro pid hrole
    subst hrole
    simp only [teardown]
    refine ⟨trivial, ?_, ?_⟩
    · intro k hk
      exact mapGet_removeFromBucket_ne _ _ _ _ (fun he => hk he.symm)
    · intro x hx
      exact mem_removeFromBucket_iff _ _ _ _ hx

/-- Witness for C10 at a concrete state: tearing down connection 0 (device
"d") leaves connection 2 (product "d") and its bucket untouched, and keeps
id 1 in the "d" device bucket. -/
theorem claim_C10_witness :
    mapGet (teardown (run demoTrace) 0 (Role.device "d")).clients 2 =
      mapGet (run demoTrace).clients 2 ∧
    (teardown (run demoTrace) 0 (Role.device "d")).productIdClients =
      (run demoTrace).productIdClients ∧
    (1 ∈ (mapGet (teardown (run demoTrace) 0 (Role.device "d")).deviceIdClients "d").getD [] ↔
      1 ∈ (mapGet (run demoTrace).deviceIdClients "d").getD []) :=
  ⟨(claim_C10 (run demoTrace) 0 (Role.device "d")).1 2 (by decide),
   ((claim_C10 (run demoTrace) 0 (Role.device "d")).2.1 "d" rfl).1,
   ((claim_C10 (run demoTrace) 0 (Role.device "d")).2.1 "d" rfl).2.2 1 (by decide)⟩

/-- C7: a frame that is not valid JSON, or whose target is not exactly
"device" or "product", or whose required id field is absent or empty, is
discarded: no delivery happens, no reply is sent, and the sending connection
stays in the table with the registries unchanged. -/
theorem claim_C7 (st : ServerState) (cid now : Nat) (m : Message) (c : Conn) :
    routeMessage st Frame.malformed = st ∧
    (m.target ≠ some "device" → m.target ≠ some "product" →
      routeMessage st (Frame.parsed m) = st) ∧
    (m.target = some "device" → truthy m.deviceId = false →
      routeMessage st (Frame.parsed m) = st) ∧
    (m.target = some "product" → truthy m.productId = false →
      routeMessage st (Frame.parsed m) = st) ∧
    (mapGet st.clients cid = some c → (rateCheck c now).limited = false →
      (handleMessage st cid now Frame.malformed).sent = st.sent ∧
      mapGet (handleMessage st cid now Frame.malformed).clients cid =
        some (rateCheck c now).conn ∧
      (rateCheck c now).conn.readyOpen = c.readyOpen ∧
      (handleMessage st cid now Frame.malformed).deviceIdClients = st.deviceIdClients ∧
      (handleMessage st cid now Frame.malformed).productIdClients = st.productIdClients) := by
  refine ⟨rfl, ?_, ?_, ?_, ?_⟩
  · intro h1 h2
    simp [routeMessage, h1, h2]
  · intro h1 h2
    simp [routeMessage, h1, h2]
  · intro h1 h2
    have hne : m.target ≠ some "device" := by rw [h1]; decide
    simp [routeMessage, h1, h2, hne]
  · intro hc hl
    have hmsg : handleMessage st cid now Frame.malformed =
        { st with clients := mapSet st.clients cid (rateCheck c now).conn,
                  closeCalls := st.closeCalls ++
                    closeCallLog cid (rateCheck c now).closeCall } := by
      simp [handleMessage, hc, hl, routeMessage]
    rw [hmsg]
    exact ⟨rfl, mapGet_mapSet_self _ _ _, (rateCheck_preserves c now).2.2.2, rfl, rfl⟩

/-- Witness for C7: on the demo state, a malformed frame and a frame with an
unknown target both leave the state unchanged. -/
theorem claim_C7_witness :
    routeMessage (run demoTrace) Frame.malformed = run demoTrace ∧
    routeMessage (run demoTrace)
      (Frame.parsed { target := some "broadcast", deviceId := some "d",
                      productId := none, payload := "" }) = run demoTrace :=
  ⟨(claim_C7 (run demoTrace) 0 0
      { target := some "broadcast", deviceId := some "d", productId := none, payload := "" }
      { clientId := 0, role := Role.device "d", isAlive := true, isTerminating := false,
        messageCount := 0, messageWindow := 0, readyOpen := true }).1,
   (claim_C7 (run demoTrace) 0 0
      { target := some "broadcast", deviceId := some "d", productId := none, payload := "" }
      { clientId := 0, role := Role.device "d", isAlive := true, isTerminating := false,
        messageCount := 0, messageWindow := 0, readyOpen := true }).2.1 (by decide) (by decide)⟩

/-- C9: the sender is not excluded from routing — a connection registered
under X that sends a valid message addressed to X in its own namespace is
among the resolved recipients and, while open, receives its own message. -/
theorem claim_C9 (st : ServerState) (cid : Nat) (c : Conn) (m : Message) (X : String)
    (hc : mapGet st.clients cid = some c) (hopen : c.readyOpen = true) (hX : X ≠ "") :
    (m.target = some "device" → m.deviceId = some X →
      cid ∈ (mapGet st.deviceIdClients X).getD [] →
      cid ∈ resolveRecipients st.clients ((mapGet st.deviceIdClients X).getD []) ∧
      (cid, stringifyMessage m) ∈ (routeMessage st (Frame.parsed m)).sent) ∧
    (m.target = some "product" → m.productId = some X →
      cid ∈ (mapGet st.productIdClients X).getD [] →
      cid ∈ resolveRecipients st.clients ((mapGet st.productIdClients X).getD []) ∧
      (cid, stringifyMessage m) ∈ (routeMessage st (Frame.parsed m)).sent) := by
  constructor
  · intro ht hd hmem
    have htr : truthy m.deviceId = true := by rw [hd]; simp [truthy, hX]
    have hroute : routeMessage st (Frame.parsed m) =
        deliverTo st ((mapGet st.deviceIdClients X).getD []) (stringifyMessage m) := by
      simp [routeMessage, ht, hd, truthy, hX]
    have hrec := mem_resolveRecipients st.clients _ cid c hc hopen hmem
    refine ⟨hrec, ?_⟩
    rw [hroute]
    simp only [deliverTo, List.mem_append]
    right
    exact List.mem_map.mpr ⟨cid, hrec, rfl⟩
  · intro ht hp hmem
    have htr : truthy m.productId = true := by rw [hp]; simp [truthy, hX]
    have hne : m.target ≠ some "device" := by rw [ht]; decide
    have hroute : routeMessage st (Frame.parsed m) =
        deliverTo st ((mapGet st.productIdClients X).getD []) (stringifyMessage m) := by
      simp [routeMessage, ht, hp, hne, truthy, hX]
    have hrec := mem_resolveRecipients st.clients _ cid c hc hopen hmem
    refine ⟨hrec, ?_⟩
    rw [hroute]
    simp only [deliverTo, List.mem_append]
    right
    exact List.mem_map.mpr ⟨cid, hrec, rfl⟩

/-- Witness for C9: the first demo connection, registered under device "d",
routes a message to "d" and is itself among the recipients of its own bytes. -/
theorem claim_C9_witness :
    0 ∈ resolveRecipients (run demoTrace).clients
      ((mapGet (run demoTrace).deviceIdClients "d").getD []) ∧
    (0, stringifyMessage demoMsg) ∈
      (routeMessage (run demoTrace) (Frame.parsed demoMsg)).sent :=
  ⟨((claim_C9 (run demoTrace) 0 demoConn0 demoMsg "d" (by decide) rfl
      (by decide)).1 rfl rfl (by decide)).1,
   ((claim_C9 (run demoTrace) 0 demoConn0 demoMsg "d" (by decide) rfl
      (by decide)).1 rfl rfl (by decide)).2⟩

/-- C1: a valid inbound message addressed to identifier X is forwarded,
re-serialized, to exactly the connections registered under X in the matching
registry bucket that exist in the Connection Table and are open — each gets
byte-identical JSON — and no connection registered under a different
identifier (or the same identifier in the other namespace) receives it. -/
theorem claim_C1 (st : ServerState) (hst : Reachable st) (m : Message) (X : String)
    (hX : X ≠ "") :
    (m.target = some "device" → m.deviceId = some X →
      (routeMessage st (Frame.parsed m)).sent =
        st.sent ++ (resolveRecipients st.clients
          ((mapGet st.deviceIdClients X).getD [])).map (fun tid => (tid, stringifyMessage m)) ∧
      (∀ tid ∈ (mapGet st.deviceIdClients X).getD [], ∀ c, mapGet st.clients tid = some c →
        c.readyOpen = true →
        (tid, stringifyMessage m) ∈ (routeMessage st (Frame.parsed m)).sent) ∧
      (∀ tid r, mapGet st.admitted tid = some r → r ≠ Role.device X → ∀ b,
        (tid, b) ∈ (routeMessage st (Frame.parsed m)).sent → (tid, b) ∈ st.sent)) ∧
    (m.target = some "product" → m.productId = some X →
      (routeMessage st (Frame.parsed m)).sent =
        st.sent ++ (resolveRecipients st.clients
          ((mapGet st.productIdClients X).getD [])).map (fun tid => (tid, stringifyMessage m)) ∧
      (∀ tid ∈ (mapGet st.productIdClients X).getD [], ∀ c, mapGet st.clients tid = some c →
        c.readyOpen = true →
        (tid, stringifyMessage m) ∈ (routeMessage st (Frame.parsed m)).sent) ∧
      (∀ tid r, mapGet st.admitted tid = some r → r ≠ Role.product X → ∀ b,
        (tid, b) ∈ (routeMessage st (Frame.parsed m)).sent → (tid, b) ∈ st.sent)) := by
  have hinv := inv_reachable st hst
  constructor
  · intro ht hd
    have hroute : routeMessage st (Frame.parsed m) =
        deliverTo st ((mapGet st.deviceIdClients X).getD []) (stringifyMessage m) := by
      simp [routeMessage, ht, hd, truthy, hX]
    refine ⟨by rw [hroute]; rfl, ?_, ?_⟩
    · intro tid htid c2 hc2 hopen2
      have hrec := mem_resolveRecipients st.clients _ tid c2 hc2 hopen2 htid
      rw [hroute]
      simp only [deliverTo, List.mem_append]
      right
      exact List.mem_map.mpr ⟨tid, hrec, rfl⟩
    · intro tid r hadm hr b hb
      rw [hroute] at hb
      simp only [deliverTo, List.mem_append] at hb
      rcases hb with hb | hb
      · exact hb
      · exfalso
        obtain ⟨tid2, htid2, heq⟩ := List.mem_map.mp hb
        injection heq with h1 h2
        subst h1
        have htid3 := resolveRecipients_subset _ _ _ htid2
        cases hg : mapGet st.deviceIdClients X with
        | none => rw [hg] at htid3; simp at htid3
        | some l =>
            rw [hg] at htid3
            have hrole := hinv.deviceRole X l hg tid2 htid3
            rw [hadm] at hrole
            exact hr (Option.some.inj hrole)
  · intro ht hp
    have hne : m.target ≠ some "device" := by rw [ht]; decide
    have hroute : routeMessage st (Frame.parsed m) =
        deliverTo st ((mapGet st.productIdClients X).getD []) (stringifyMessage m) := by
      simp [routeMessage, ht, hp, hne, truthy, hX]
    refine ⟨by rw [hroute]; rfl, ?_, ?_⟩
    · intro tid htid c2 hc2 hopen2
      have hrec := mem_resolveRecipients st.clients _ tid c2 hc2 hopen2 htid
      rw [hroute]
      simp only [deliverTo, List.mem_append]
      right
      exact List.mem_map.mpr ⟨tid, hrec, rfl⟩
    · intro tid r hadm hr b hb
      rw [hroute] at hb
      simp only [deliverTo, List.mem_append] at hb
      rcases hb with hb | hb
      · exact hb
      · exfalso
        obtain ⟨tid2, htid2, heq⟩ := List.mem_map.mp hb
        injection heq with h1 h2
        subst h1
        have htid3 := resolveRecipients_subset _ _ _ htid2
        cases hg : mapGet st.productIdClients X with
        | none => rw [hg] at htid3; simp at htid3
        | some l =>
            rw [hg] at htid3
            have hrole := hinv.productRole X l hg tid2 htid3
            rw [hadm] at hrole
            exact hr (Option.some.inj hrole)

/-- Witness for C1 at a concrete reachable state: the message to device "d"
is appended for exactly the two device connections, connection 0 receives its
byte-identical copy, and the product connection 2 receives nothing. -/
theorem claim_C1_witness :
    (routeMessage (run demoTrace) (Frame.parsed demoMsg)).sent =
      (run demoTrace).sent ++ (resolveRecipients (run demoTrace).clients
        ((mapGet (run demoTrace).deviceIdClients "d").getD [])).map
        (fun tid => (tid, stringifyMessage demoMsg)) ∧
    (0, stringifyMessage demoMsg) ∈ (routeMessage (run demoTrace) (Frame.parsed demoMsg)).sent ∧
    (2, stringifyMessage demoMsg) ∉ (routeMessage (run demoTrace) (Frame.parsed demoMsg)).sent :=
  ⟨((claim_C1 (run demoTrace) ⟨demoTrace, rfl⟩ demoMsg "d" (by decide)).1 rfl rfl).1,
   ((claim_C1 (run demoTrace) ⟨demoTrace, rfl⟩ demoMsg "d" (by decide)).1 rfl rfl).2.1
     0 (by decide) demoConn0 (by decide) rfl,
   by decide⟩

/-- C2: after a connection closes, its id is gone from the Connection Table
and from every bucket of both registry mappings, and no empty bucket is left
behind — in every reachable state. -/
theorem claim_C2 (st : ServerState) (hst : Reachable st) (cid : Nat)
    (hc : cid ∈ st.closedIds) :
    mapGet st.clients cid = none ∧
    (∀ k l, mapGet st.deviceIdClients k = some l → cid ∉ l) ∧
    (∀ k l, mapGet st.productIdClients k = some l → cid ∉ l) ∧
    (∀ k l, mapGet st.deviceIdClients k = some l → l ≠ []) ∧
    (∀ k l, mapGet st.productIdClients k = some l → l ≠ []) := by
  have hinv := inv_reachable st hst
  exact ⟨hinv.closedNotClient cid hc, hinv.closedNotDevice cid hc,
    hinv.closedNotProduct cid hc, hinv.deviceNonempty, hinv.productNonempty⟩

/-- Witness for C2: after connection 0 (device "d", last member of its bucket)
closes, its table entry is gone and the whole device mapping is empty. -/
theorem claim_C2_witness :
    0 ∈ (run demoTraceClose).closedIds ∧
    mapGet (run demoTraceClose).clients 0 = none ∧
    (run demoTraceClose).deviceIdClients = [] :=
  ⟨by decide,
   (claim_C2 (run demoTraceClose) ⟨demoTraceClose, rfl⟩ 0 (by decide)).1,
   by decide⟩

/-- C5: at a heartbeat tick every connection with a false liveness flag is
terminated and torn down, every other connection is flagged false and pinged;
only a pong sets the flag back to true; hence a silent connection is gone
after two consecutive ticks. -/
theorem claim_C5 (st : ServerState) (hst : Reachable st) :
    (∀ cid c, mapGet st.clients cid = some c → c.isAlive = false →
      mapGet (heartbeatTick st).clients cid = none ∧
        cid ∈ (heartbeatTick st).closedIds) ∧
    (∀ cid c, mapGet st.clients cid = some c → c.isAlive = true →
      mapGet (heartbeatTick st).clients cid = some { c with isAlive := false } ∧
        cid ∈ (heartbeatTick st).pings) ∧
    (∀ st2 cid c, mapGet st2.clients cid = some c →
      mapGet (handlePong st2 cid).clients cid = some { c with isAlive := true }) ∧
    (∀ cid c, mapGet st.clients cid = some c →
      mapGet (heartbeatTick (heartbeatTick st)).clients cid = none) := by
  have hinv := inv_reachable st hst
  refine ⟨?_, ?_, ?_, ?_⟩
  · intro cid c hc ha
    exact heartbeatTick_dead st hinv cid c hc ha
  · intro cid c hc ha
    exact heartbeatTick_alive st hinv cid c hc ha
  · intro st2 cid c hc
    simp [handlePong, hc]
  · intro cid c hc
    by_cases ha : c.isAlive = true
    · have h1 := (heartbeatTick_alive st hinv cid c hc ha).1
      have hinv1 := inv_heartbeatTick st hinv
      exact (heartbeatTick_dead _ hinv1 cid _ h1 rfl).1
    · have ha2 : c.isAlive = false := by
        cases hv : c.isAlive
        · rfl
        · exact absurd hv ha
      have h1 := (heartbeatTick_dead st hinv cid c hc ha2).1
      exact foldl_tickConn_clients_none _ _ _ h1

/-- Witness for C5: the demo connection is flagged and pinged at the first
tick and is gone after the second. -/
theorem claim_C5_witness :
    mapGet (heartbeatTick (run demoTraceHb)).clients 0 =
      some { demoConn0 with isAlive := false } ∧
    0 ∈ (heartbeatTick (run demoTraceHb)).pings ∧
    mapGet (heartbeatTick (heartbeatTick (run demoTraceHb))).clients 0 = none :=
  ⟨((claim_C5 (run demoTraceHb) ⟨demoTraceHb, rfl⟩).2.1 0 demoConn0 (by decide) rfl).1,
   ((claim_C5 (run demoTraceHb) ⟨demoTraceHb, rfl⟩).2.1 0 demoConn0 (by decide) rfl).2,
   (claim_C5 (run demoTraceHb) ⟨demoTraceHb, rfl⟩).2.2.2 0 demoConn0 (by decide)⟩

/-- C3: per inbound message, an elapsed window (strictly more than 1000 ms) is
reset before the count is incremented; at most 25 messages in a window never
close the connection; a count exceeding 25 closes it exactly once — guarded by
the terminating flag — with code 1008 and reason "Rate limit exceeded", and
the offending message is discarded; a message after the window elapsed resets
the counter and is processed by the router. -/
theorem claim_C3 (st : ServerState) (c : Conn) (cid now : Nat) (f : Frame) :
    (1000 < now - c.messageWindow →
      (rateCheck c now).conn.messageWindow = now ∧
      (rateCheck c now).conn.messageCount = 1 ∧
      (rateCheck c now).limited = false ∧ (rateCheck c now).closeCall = none) ∧
    (¬(1000 < now - c.messageWindow) → c.messageCount + 1 ≤ 25 →
      (rateCheck c now).conn.messageWindow = c.messageWindow ∧
      (rateCheck c now).conn.messageCount = c.messageCount + 1 ∧
      (rateCheck c now).limited = false ∧ (rateCheck c now).closeCall = none) ∧
    (¬(1000 < now - c.messageWindow) → 25 < c.messageCount + 1 →
      (rateCheck c now).conn.messageCount = c.messageCount + 1 ∧
      (rateCheck c now).limited = true ∧
      (rateCheck c now).conn.isTerminating = true ∧
      (rateCheck c now).closeCall =
        (if c.isTerminating = true then none else some (1008, "Rate limit exceeded"))) ∧
    (mapGet st.clients cid = some c → (rateCheck c now).limited = true →
      (handleMessage st cid now f).sent = st.sent ∧
      (handleMessage st cid now f).closeCalls =
        st.closeCalls ++ closeCallLog cid (rateCheck c now).closeCall ∧
      (handleMessage st cid now f).deviceIdClients = st.deviceIdClients ∧
      (handleMessage st cid now f).productIdClients = st.productIdClients) ∧
    (mapGet st.clients cid = some c → (rateCheck c now).limited = false →
      handleMessage st cid now f =
        routeMessage { st with clients := mapSet st.clients cid (rateCheck c now).conn,
                               closeCalls := st.closeCalls ++
                                 closeCallLog cid (rateCheck c now).closeCall } f) := by
  refine ⟨?_, ?_, ?_, ?_, ?_⟩
  · intro hA
    simp [rateCheck, hA]
  · intro hA hB
    have hB2 : ¬ 25 < c.messageCount + 1 := by omega
    simp [rateCheck, hA, hB2]
  · intro hA hB
    by_cases hT : c.isTerminating = true <;> simp [rateCheck, hA, hB, hT]
  · intro hc hl
    have hmsg : handleMessage st cid now f =
        { st with clients := mapSet st.clients cid (rateCheck c now).conn,
                  closeCalls := st.closeCalls ++
                    closeCallLog cid (rateCheck c now).closeCall } := by
      simp [handleMessage, hc, hl]
    rw [hmsg]
    exact ⟨rfl, rfl, rfl, rfl⟩
  · intro hc hl
    simp [handleMessage, hc, hl]

/-- Witness for C3: a fresh connection is not limited; one with 25 messages
already counted in the current window is closed with 1008 "Rate limit
exceeded"; a 26th message arriving after the window elapsed is accepted with
the counter reset to 1. -/
theorem claim_C3_witness :
    (rateCheck demoConn0 0).limited = false ∧
    (rateCheck { demoConn0 with messageCount := 25 } 0).limited = true ∧
    (rateCheck { demoConn0 with messageCount := 25 } 0).closeCall =
      some (1008, "Rate limit exceeded") ∧
    (rateCheck { demoConn0 with messageCount := 25 } 2000).limited = false ∧
    (rateCheck { demoConn0 with messageCount := 25 } 2000).conn.messageCount = 1 :=
  ⟨((claim_C3 initState demoConn0 0 0 Frame.malformed).2.1 (by decide) (by decide)).2.2.1,
   ((claim_C3 initState { demoConn0 with messageCount := 25 } 0 0
       Frame.malformed).2.2.1 (by decide) (by decide)).2.1,
   (((claim_C3 initState { demoConn0 with messageCount := 25 } 0 0
       Frame.malformed).2.2.1 (by decide) (by decide)).2.2.2).trans (by decide),
   ((claim_C3 initState { demoConn0 with messageCount := 25 } 0 2000
       Frame.malformed).1 (by decide)).2.2.1,
   ((claim_C3 initState { demoConn0 with messageCount := 25 } 0 2000
       Frame.malformed).1 (by decide)).2.1⟩

/-- C4: a connection request with neither identifier is rejected with 1008
"Missing device-id or product-id", one with both is rejected with 1008
"Can't provide both device-id and product-id", and neither rejection touches
the Connection Table or the registries; a request with exactly one identifier
is accepted under a fresh id with liveness true and is inserted into the
Connection Table and into exactly the bucket matching its role. -/
theorem claim_C4 (st : ServerState) (now : Nat) (d p : Option String) :
    (truthy d = false → truthy p = false →
      (handleConnection st now d p).2 =
        AdmissionResult.rejected 1008 "Missing device-id or product-id" ∧
      (handleConnection st now d p).1.clients = st.clients ∧
      (handleConnection st now d p).1.deviceIdClients = st.deviceIdClients ∧
      (handleConnection st now d p).1.productIdClients = st.productIdClients ∧
      (handleConnection st now d p).1.admitted = st.admitted) ∧
    (truthy d = true → truthy p = true →
      (handleConnection st now d p).2 =
        AdmissionResult.rejected 1008 "Can\x27t provide both device-id and product-id" ∧
      (handleConnection st now d p).1.clients = st.clients ∧
      (handleConnection st now d p).1.deviceIdClients = st.deviceIdClients ∧
      (handleConnection st now d p).1.productIdClients = st.productIdClients ∧
      (handleConnection st now d p).1.admitted = st.admitted) ∧
    (truthy d = true → truthy p = false →
      (handleConnection st now d p).2 = AdmissionResult.accepted st.nextClientId ∧
      mapGet (handleConnection st now d p).1.clients st.nextClientId =
        some { clientId := st.nextClientId, role := Role.device (d.getD ""),
               isAlive := true, isTerminating := false, messageCount := 0,
               messageWindow := now, readyOpen := true } ∧
      (handleConnection st now d p).1.deviceIdClients =
        mapSet st.deviceIdClients (d.getD "")
          (((mapGet st.deviceIdClients (d.getD "")).getD []) ++ [st.nextClientId]) ∧
      (handleConnection st now d p).1.productIdClients = st.productIdClients) ∧
    (truthy d = false → truthy p = true →
      (handleConnection st now d p).2 = AdmissionResult.accepted st.nextClientId ∧
      mapGet (handleConnection st now d p).1.clients st.nextClientId =
        some { clientId := st.nextClientId, role := Role.product (p.getD ""),
               isAlive := true, isTerminating := false, messageCount := 0,
               messageWindow := now, readyOpen := true } ∧
      (handleConnection st now d p).1.productIdClients =
        mapSet st.productIdClients (p.getD "")
          (((mapGet st.productIdClients (p.getD "")).getD []) ++ [st.nextClientId]) ∧
      (handleConnection st now d p).1.deviceIdClients = st.deviceIdClients) := by
  refine ⟨?_, ?_, ?_, ?_⟩
  · intro hd hp
    simp [handleConnection, hd, hp]
  · intro hd hp
    simp [handleConnection, hd, hp]
  · intro hd hp
    simp [handleConnection, hd, hp]
  · intro hd hp
    simp [handleConnection, hd, hp]

/-- Witness for C4: at the initial state, the three admission outcomes on
concrete parameter combinations. -/
theorem claim_C4_witness :
    (handleConnection initState 0 none none).2 =
      AdmissionResult.rejected 1008 "Missing device-id or product-id" ∧
    (handleConnection initState 0 (some "d") (some "p")).2 =
      AdmissionResult.rejected 1008 "Can\x27t provide both device-id and product-id" ∧
    (handleConnection initState 0 (some "d") none).2 = AdmissionResult.accepted 0 ∧
    mapGet (handleConnection initState 0 (some "d") none).1.clients 0 = some demoConn0 :=
  ⟨((claim_C4 initState 0 none none).1 rfl rfl).1,
   ((claim_C4 initState 0 (some "d") (some "p")).2.1 (by decide) (by decide)).1,
   ((claim_C4 initState 0 (some "d") none).2.2.1 (by decide) rfl).1,
   ((claim_C4 initState 0 (some "d") none).2.2.1 (by decide) rfl).2.1⟩

/-- Counterexample to C8 as stated: with two firmware objects listed, the
handler answers with the URL and version of the *first listed* file
(`files[0]`, version 1.0.0), while the unique newest object (greatest
`lastModified`, and also the higher version) is the second one — so the
response is not the newest object's URL and version. -/
theorem claim_C8_counterexample :
    IsNewest [fwDemoOld, fwDemoNew] fwDemoNew ∧
    ¬ IsNewest [fwDemoOld, fwDemoNew] fwDemoOld ∧
    extractVersion fwDemoNew.key = some "2.0.0" ∧
    firmwareObserver "bkt" [fwDemoOld, fwDemoNew] =
      FirmwareResponse.ok "1.0.0" (getPublicObjectURL "bkt" fwDemoOld.key) ∧
    firmwareObserver "bkt" [fwDemoOld, fwDemoNew] ≠
      FirmwareResponse.ok "2.0.0" (getPublicObjectURL "bkt" fwDemoNew.key) :=
  ⟨by decide, by decide, by decide, by decide, by decide⟩

/-- C8, amended: the firmware-lookup GET returns the *first listed* firmware
object's public URL together with a semantic version parsed from that object's
key; when no firmware object exists, or no semantic version can be parsed from
that first object's key, it returns a 404 error. -/
theorem claim_C8_amended (bucketName : String) (contents : List S3Object) :
    (contents.filter (fun o => !(keyEndsWithSlash o.key)) = [] →
      firmwareObserver bucketName contents =
        FirmwareResponse.notFound "No firmware found!") ∧
    (∀ f rest, contents.filter (fun o => !(keyEndsWithSlash o.key)) = f :: rest →
      (extractVersion f.key = none →
        firmwareObserver bucketName contents =
          FirmwareResponse.notFound "No version found in filename!") ∧
      (∀ v, extractVersion f.key = some v →
        firmwareObserver bucketName contents =
          FirmwareResponse.ok v (getPublicObjectURL bucketName f.key))) := by
  constructor
  · intro hnil
    simp [firmwareObserver, hnil]
  · intro f rest hcons
    constructor
    · intro hv
      simp [firmwareObserver, hcons, hv]
    · intro v hv
      simp [firmwareObserver, hcons, hv]

/-- Witness for the amended C8: an empty listing yields the 404, a listing
whose first file carries version 1.0.0 yields that version and URL, and a
first file without a parsable version yields the version 404. -/
theorem claim_C8_amended_witness :
    firmwareObserver "bkt" [] = FirmwareResponse.notFound "No firmware found!" ∧
    firmwareObserver "bkt" [fwDemoOld, fwDemoNew] =
      FirmwareResponse.ok "1.0.0"
        "https://bkt.fra1.digitaloceanspaces.com/rootprivacy/firmware/observer/fw-1.0.0.bin" ∧
    firmwareObserver "bkt" [fwDemoNoVer] =
      FirmwareResponse.notFound "No version found in filename!" :=
  ⟨(claim_C8_amended "bkt" []).1 rfl,
   (((claim_C8_amended "bkt" [fwDemoOld, fwDemoNew]).2 fwDemoOld [fwDemoNew]
       (by decide)).2 "1.0.0" (by decide)).trans (by decide),
   ((claim_C8_amended "bkt" [fwDemoNoVer]).2 fwDemoNoVer [] (by decide)).1 (by decide)⟩

end RootRelay
